import Mathlib

/-!
# Verification of the GP2040-CE gamepad input-processing core

Shallow embedding of `src/headers/gamepad.h` (the `Gamepad` class header):
the SOCD policy resolver, the button-mapping record, the hotkey match /
consume helpers, and — modelled from the specification where the
implementation is only declared in the header — the hotkey scan loop, the
edge-triggered hotkey dispatch latch, the per-mask SOCD cleaner, and the
debouncer.

Machine integers are embedded as `Nat` with explicit masking where the C++
width matters (`uint8_t` = 8 bits, `uint16_t` = 16 bits).
-/

namespace GP2040

/-- Input protocol modes referenced by `gamepad.h` (`INPUT_MODE_*`).
The enum itself comes from `enums.pb.h`, which is not part of the core
header; the set of protocols is modelled from the spec's list of report
adapters (HID, Switch, XInput, Keyboard, PS4). -/
inductive InputMode where
  | INPUT_MODE_XINPUT
  | INPUT_MODE_SWITCH
  | INPUT_MODE_HID
  | INPUT_MODE_KEYBOARD
  | INPUT_MODE_PS4
  deriving DecidableEq, Repr

/-- SOCD resolution policies referenced by `gamepad.h` (`SOCD_MODE_*`).
The enum itself comes from `enums.pb.h`; the set of policies is modelled
from the spec's §4.3 list (Neutral, Up-priority, Second-input priority,
Bypass). -/
inductive SOCDMode where
  | SOCD_MODE_NEUTRAL
  | SOCD_MODE_UP_PRIORITY
  | SOCD_MODE_SECOND_INPUT_PRIORITY
  | SOCD_MODE_BYPASS
  deriving DecidableEq, Repr

/-- D-pad interpretation modes (`DpadMode` in `gamepad.h`'s `setDpadMode`).
Modelled from the spec: the config carries a "D-pad interpretation mode";
its values are not enumerated by the core header. -/
inductive DpadMode where
  | DPAD_MODE_DIGITAL
  | DPAD_MODE_LEFT_ANALOG
  | DPAD_MODE_RIGHT_ANALOG
  deriving DecidableEq, Repr

/-- The slice of `GamepadOptions` read by the core header: the input
protocol mode, the SOCD policy and the D-pad mode (the three fields the
header's setters touch). -/
structure GamepadOptions where
  inputMode : InputMode
  socdMode : SOCDMode
  dpadMode : DpadMode
  deriving DecidableEq, Repr

open InputMode SOCDMode DpadMode

/-- Embeds `Gamepad::resolveSOCDMode` (gamepad.h lines 235-241):
returns Neutral when the configured policy is Bypass and the input mode is
HID, Switch or PS4; otherwise returns the configured policy unchanged. -/
def resolveSOCDMode (options : GamepadOptions) : SOCDMode :=
  if options.socdMode = SOCD_MODE_BYPASS ∧
      (options.inputMode = INPUT_MODE_HID ∨
       options.inputMode = INPUT_MODE_SWITCH ∨
       options.inputMode = INPUT_MODE_PS4) then
    SOCD_MODE_NEUTRAL
  else
    options.socdMode

/-- The SOCD-clean-required set of protocols named by the spec: the
standard gamepad/HID-class protocols hard-coded in `resolveSOCDMode`. -/
def socdCleanRequired (m : InputMode) : Prop :=
  m = INPUT_MODE_HID ∨ m = INPUT_MODE_SWITCH ∨ m = INPUT_MODE_PS4

instance : DecidablePred socdCleanRequired := fun m =>
  inferInstanceAs (Decidable (m = _ ∨ m = _ ∨ m = _))

/-- C1: with policy Bypass and a protocol in the SOCD-clean-required set,
`resolveSOCDMode` returns Neutral; and for any protocol in that set it
never returns Bypass, whatever the configured policy. -/
theorem resolveSOCDMode_bypass_coerced (options : GamepadOptions)
    (hm : socdCleanRequired options.inputMode) :
    (options.socdMode = SOCD_MODE_BYPASS →
      resolveSOCDMode options = SOCD_MODE_NEUTRAL) ∧
    resolveSOCDMode options ≠ SOCD_MODE_BYPASS := by
  obtain ⟨im, sm, dm⟩ := options
  cases sm <;> cases im <;>
    simp_all [resolveSOCDMode, socdCleanRequired]

/-- Witness for C1 at a concrete option value (Bypass policy, HID mode). -/
theorem resolveSOCDMode_bypass_coerced_witness :
    resolveSOCDMode ⟨INPUT_MODE_HID, SOCD_MODE_BYPASS, DPAD_MODE_DIGITAL⟩ =
      SOCD_MODE_NEUTRAL :=
  (resolveSOCDMode_bypass_coerced
    ⟨INPUT_MODE_HID, SOCD_MODE_BYPASS, DPAD_MODE_DIGITAL⟩
    (by decide)).1 rfl

/-- C8: `resolveSOCDMode` is deterministic — its result depends only on
the `socdMode` and `inputMode` fields of the options, on no other state. -/
theorem resolveSOCDMode_deterministic (o₁ o₂ : GamepadOptions)
    (hs : o₁.socdMode = o₂.socdMode) (hi : o₁.inputMode = o₂.inputMode) :
    resolveSOCDMode o₁ = resolveSOCDMode o₂ := by
  simp [resolveSOCDMode, hs, hi]

/-- Witness for C8: two options equal on `socdMode` and `inputMode` but
different on `dpadMode` resolve identically. -/
theorem resolveSOCDMode_deterministic_witness :
    resolveSOCDMode ⟨INPUT_MODE_HID, SOCD_MODE_BYPASS, DPAD_MODE_DIGITAL⟩ =
      resolveSOCDMode ⟨INPUT_MODE_HID, SOCD_MODE_BYPASS, DPAD_MODE_LEFT_ANALOG⟩ :=
  resolveSOCDMode_deterministic _ _ rfl rfl

/-- C10: `resolveSOCDMode` is the identity outside the coerced case: a
non-Bypass policy is returned unchanged whatever the input mode, and
Bypass is returned unchanged for any input mode outside the
SOCD-clean-required set (e.g. XInput or Keyboard). -/
theorem resolveSOCDMode_identity_outside_coercion (options : GamepadOptions) :
    (options.socdMode ≠ SOCD_MODE_BYPASS →
      resolveSOCDMode options = options.socdMode) ∧
    (options.socdMode = SOCD_MODE_BYPASS →
      ¬ socdCleanRequired options.inputMode →
      resolveSOCDMode options = SOCD_MODE_BYPASS) := by
  obtain ⟨im, sm, dm⟩ := options
  cases sm <;> cases im <;>
    simp_all [resolveSOCDMode, socdCleanRequired]

/-- Witness for C10 at concrete options: Neutral/HID passes through, and
Bypass/XInput and Bypass/Keyboard pass through. -/
theorem resolveSOCDMode_identity_outside_coercion_witness :
    resolveSOCDMode ⟨INPUT_MODE_HID, SOCD_MODE_NEUTRAL, DPAD_MODE_DIGITAL⟩ =
      SOCD_MODE_NEUTRAL ∧
    resolveSOCDMode ⟨INPUT_MODE_XINPUT, SOCD_MODE_BYPASS, DPAD_MODE_DIGITAL⟩ =
      SOCD_MODE_BYPASS ∧
    resolveSOCDMode ⟨INPUT_MODE_KEYBOARD, SOCD_MODE_BYPASS, DPAD_MODE_DIGITAL⟩ =
      SOCD_MODE_BYPASS :=
  ⟨(resolveSOCDMode_identity_outside_coercion
      ⟨INPUT_MODE_HID, SOCD_MODE_NEUTRAL, DPAD_MODE_DIGITAL⟩).1 (by decide),
   (resolveSOCDMode_identity_outside_coercion
      ⟨INPUT_MODE_XINPUT, SOCD_MODE_BYPASS, DPAD_MODE_DIGITAL⟩).2 rfl (by decide),
   (resolveSOCDMode_identity_outside_coercion
      ⟨INPUT_MODE_KEYBOARD, SOCD_MODE_BYPASS, DPAD_MODE_DIGITAL⟩).2 rfl (by decide)⟩

/-! ## Button mapping (`GamepadButtonMapping`, gamepad.h lines 29-56) -/

/-- `NUM_BANK0_GPIOS`: number of bank-0 GPIO pins on the RP2040, supplied
by the Pico SDK (`pico/stdlib.h`), an external collaborator of the core. -/
def NUM_BANK0_GPIOS : Nat := 30

/-- Embeds `struct GamepadButtonMapping` (gamepad.h lines 29-56): a pin
index (`uint8_t`), the derived pin bitmask (`uint32_t`) and the immutable
logical button mask (`const uint16_t`). -/
structure GamepadButtonMapping where
  pin : Nat
  pinMask : Nat
  buttonMask : Nat
  deriving DecidableEq, Repr

namespace GamepadButtonMapping

/-- Embeds the `GamepadButtonMapping(uint8_t p, uint16_t bm)` constructor:
`pin = p < NUM_BANK0_GPIOS ? p : 0xff`,
`pinMask = p < NUM_BANK0_GPIOS ? (1 << p) : 0`. -/
def mk' (p : Nat) (bm : Nat) : GamepadButtonMapping :=
  { pin := if p < NUM_BANK0_GPIOS then p else 0xff
    pinMask := if p < NUM_BANK0_GPIOS then 1 <<< p else 0
    buttonMask := bm }

/-- Embeds `GamepadButtonMapping::setPin` (gamepad.h lines 41-53). -/
def setPin (m : GamepadButtonMapping) (p : Nat) : GamepadButtonMapping :=
  if p < NUM_BANK0_GPIOS then
    { m with pin := p, pinMask := 1 <<< p }
  else
    { m with pin := 0xff, pinMask := 0 }

/-- Embeds `GamepadButtonMapping::isAssigned`: `pin != 0xff`. -/
def isAssigned (m : GamepadButtonMapping) : Bool :=
  m.pin ≠ 0xff

end GamepadButtonMapping

/-- C2: both the constructor and `setPin` establish exactly one of two
states — valid (`pin = p`, `pinMask = 1 <<< p`) when `p` is below the GPIO
pin count, otherwise fully unassigned (`pin = 0xff`, `pinMask = 0`) — with
`isAssigned` false exactly when `pin` is the sentinel; an out-of-range pin
(such as 255) therefore yields an unassigned mapping whose mask contributes
nothing to any raw state. -/
theorem gamepadButtonMapping_all_or_nothing (p bm : Nat) (hp : p < 256)
    (m : GamepadButtonMapping) :
    ((p < NUM_BANK0_GPIOS →
        GamepadButtonMapping.mk' p bm =
          { pin := p, pinMask := 1 <<< p, buttonMask := bm } ∧
        (m.setPin p).pin = p ∧ (m.setPin p).pinMask = 1 <<< p) ∧
     (¬ p < NUM_BANK0_GPIOS →
        GamepadButtonMapping.mk' p bm =
          { pin := 0xff, pinMask := 0, buttonMask := bm } ∧
        (m.setPin p).pin = 0xff ∧ (m.setPin p).pinMask = 0)) ∧
    ((GamepadButtonMapping.mk' p bm).isAssigned = false ↔
      (GamepadButtonMapping.mk' p bm).pin = 0xff) ∧
    ((GamepadButtonMapping.mk' p bm).isAssigned = false ↔
      ¬ p < NUM_BANK0_GPIOS) ∧
    (¬ p < NUM_BANK0_GPIOS →
      ∀ levels : Nat, levels &&& (GamepadButtonMapping.mk' p bm).pinMask = 0) := by
  refine ⟨⟨?_, ?_⟩, ?_, ?_, ?_⟩
  · intro h
    simp [GamepadButtonMapping.mk', GamepadButtonMapping.setPin, h]
  · intro h
    simp [GamepadButtonMapping.mk', GamepadButtonMapping.setPin, h]
  · by_cases h : p < NUM_BANK0_GPIOS
    · simp [GamepadButtonMapping.mk', GamepadButtonMapping.isAssigned,
        NUM_BANK0_GPIOS, h]
    · simp [GamepadButtonMapping.mk', GamepadButtonMapping.isAssigned, h]
  · by_cases h : p < NUM_BANK0_GPIOS
    · simp [GamepadButtonMapping.mk', GamepadButtonMapping.isAssigned, h]
      simp only [NUM_BANK0_GPIOS] at h
      omega
    · simp [GamepadButtonMapping.mk', GamepadButtonMapping.isAssigned, h]
  · intro h levels
    simp [GamepadButtonMapping.mk', h]

/-- Witness for C2 at `p = 255`: the mapping is unassigned with zero mask,
and at `p = 2` it is fully assigned. -/
theorem gamepadButtonMapping_all_or_nothing_witness :
    (GamepadButtonMapping.mk' 255 77).isAssigned = false ∧
    (GamepadButtonMapping.mk' 255 77).pinMask = 0 ∧
    (GamepadButtonMapping.mk' 2 77).isAssigned = true ∧
    (GamepadButtonMapping.mk' 2 77).pinMask = 4 := by
  have h := gamepadButtonMapping_all_or_nothing 255 77 (by decide)
    (GamepadButtonMapping.mk' 0 0)
  refine ⟨?_, ?_, by decide, by decide⟩
  · exact (h.2.2.1).mpr (by decide)
  · have := (h.1.2 (by decide)).1
    rw [this]

/-! ## Gamepad state and hotkey helpers (gamepad.h lines 96-144) -/

/-- The slice of `GamepadState` read and written by the core header: the
resolved d-pad mask (`uint8_t`), resolved button mask (`uint16_t`), the
auxiliary mask, and the as-wired views `bwires` / `dwires` used by the
`activeWire*` helpers. (`GamepadState.h` itself is an external include;
the fields are those the header dereferences.) -/
structure GamepadState where
  dpad : Nat
  buttons : Nat
  aux : Nat
  bwires : Nat
  dwires : Nat
  deriving DecidableEq, Repr

/-- A hotkey chord definition (`HotkeyEntry`, from the externally owned
config): required button mask, required d-pad mask, required auxiliary
mask, and the action identifier (`0` = slot unused, `HOTKEY_NONE`). -/
structure HotkeyEntry where
  action : Nat
  buttonsMask : Nat
  dpadMask : Nat
  auxMask : Nat
  deriving DecidableEq, Repr

/-- Embeds `Gamepad::pressedButton`: `(state.buttons & mask) == mask`. -/
def pressedButton (state : GamepadState) (mask : Nat) : Bool :=
  state.buttons &&& mask == mask

/-- Embeds `Gamepad::pressedDpad`: `(state.dpad & mask) == mask`. -/
def pressedDpad (state : GamepadState) (mask : Nat) : Bool :=
  state.dpad &&& mask == mask

/-- Embeds `Gamepad::pressedAux`: `(state.aux & mask) == mask`. -/
def pressedAux (state : GamepadState) (mask : Nat) : Bool :=
  state.aux &&& mask == mask

/-- Embeds `Gamepad::pressedHotkey` (gamepad.h lines 132-135): the entry
matches when its action is nonzero and its button, d-pad and aux masks
are each fully contained in the corresponding state mask. -/
def pressedHotkey (state : GamepadState) (hotkey : HotkeyEntry) : Bool :=
  hotkey.action != 0 && pressedButton state hotkey.buttonsMask &&
    pressedDpad state hotkey.dpadMask && pressedAux state hotkey.auxMask

/-- Embeds `Gamepad::selectHotkey` (gamepad.h lines 140-144): clears the
entry's button bits from `state.buttons` (16-bit `&= ~mask`) and its d-pad
bits from `state.dpad` (8-bit `&= ~mask`), and returns the entry's action.
The C++ complement is taken at the field's width, embedded as xor against
the all-ones mask of that width. -/
def selectHotkey (state : GamepadState) (hotkey : HotkeyEntry) :
    GamepadState × Nat :=
  ({ state with
      buttons := state.buttons &&& (0xffff ^^^ hotkey.buttonsMask)
      dpad := state.dpad &&& (0xff ^^^ hotkey.dpadMask) },
   hotkey.action)

/-- Modelled from the spec: the hotkey scan loop of `Gamepad::hotkey`,
whose body is not part of the header — "evaluate each entry's predicate …
and return the action of the first entry that matches, or none"
(spec §4.4); the match predicate itself is the header's `pressedHotkey`. -/
def findHotkey (state : GamepadState) : List HotkeyEntry → Option HotkeyEntry
  | [] => none
  | h :: rest => if pressedHotkey state h then some h else findHotkey state rest

/-- C3: an entry matches iff its action is nonzero and each of its three
required masks is fully contained (bitwise AND-equals) in the current
state mask; the scan returns the first matching entry in list order, and
returns none exactly when no entry matches — so at most one hotkey fires
per cycle. -/
theorem hotkey_first_match (state : GamepadState) (h : HotkeyEntry)
    (entries : List HotkeyEntry) :
    (pressedHotkey state h = true ↔
      (h.action ≠ 0 ∧
       state.buttons &&& h.buttonsMask = h.buttonsMask ∧
       state.dpad &&& h.dpadMask = h.dpadMask ∧
       state.aux &&& h.auxMask = h.auxMask)) ∧
    (∀ e, findHotkey state entries = some e →
      ∃ pre post, entries = pre ++ e :: post ∧
        pressedHotkey state e = true ∧
        ∀ e' ∈ pre, pressedHotkey state e' = false) ∧
    (findHotkey state entries = none ↔
      ∀ e ∈ entries, pressedHotkey state e = false) := by
  refine ⟨?_, ?_, ?_⟩
  · simp [pressedHotkey, pressedButton, pressedDpad, pressedAux,
      and_assoc]
  · intro e he
    induction entries with
    | nil => simp [findHotkey] at he
    | cons a rest ih =>
      by_cases ha : pressedHotkey state a
      · simp only [findHotkey, if_pos ha, Option.some.injEq] at he
        subst he
        exact ⟨[], rest, by simp, ha, by simp⟩
      · simp only [findHotkey, if_neg ha] at he
        obtain ⟨pre, post, hsplit, hmatch, hpre⟩ := ih he
        refine ⟨a :: pre, post, by simp [hsplit], hmatch, ?_⟩
        intro e' he'
        rcases List.mem_cons.mp he' with rfl | hmem
        · simpa using ha
        · exact hpre e' hmem
  · induction entries with
    | nil => simp [findHotkey]
    | cons a rest ih =>
      by_cases ha : pressedHotkey state a
      · simp [findHotkey, ha]
      · simp only [findHotkey, if_neg ha]
        rw [ih]
        simp_all

/-- Witness for C3 on a concrete state and two-entry list: the first
matching entry wins. -/
theorem hotkey_first_match_witness :
    (pressedHotkey ⟨1, 3, 4, 0, 0⟩ ⟨7, 3, 0, 4⟩ = true ↔
      ((7 : Nat) ≠ 0 ∧ (3 : Nat) &&& 3 = 3 ∧ (1 : Nat) &&& 0 = 0 ∧
        (4 : Nat) &&& 4 = 4)) ∧
    (∀ e, findHotkey ⟨1, 3, 4, 0, 0⟩ [⟨0, 0, 0, 0⟩, ⟨7, 3, 0, 4⟩] = some e →
      ∃ pre post,
        ([⟨0, 0, 0, 0⟩, ⟨7, 3, 0, 4⟩] : List HotkeyEntry) =
          pre ++ e :: post ∧
        pressedHotkey ⟨1, 3, 4, 0, 0⟩ e = true ∧
        ∀ e' ∈ pre, pressedHotkey ⟨1, 3, 4, 0, 0⟩ e' = false) :=
  ⟨(hotkey_first_match ⟨1, 3, 4, 0, 0⟩ ⟨7, 3, 0, 4⟩ []).1,
   (hotkey_first_match ⟨1, 3, 4, 0, 0⟩ ⟨7, 3, 0, 4⟩
     [⟨0, 0, 0, 0⟩, ⟨7, 3, 0, 4⟩]).2.1⟩

/-- C4: consuming a hotkey clears the entry's required button bits from
the resolved button mask and its required d-pad bits from the resolved
d-pad mask — after the chord fires those bits are absent from the
published state — and `selectHotkey` returns the entry's action. -/
theorem selectHotkey_consumes_chord (state : GamepadState) (h : HotkeyEntry)
    (hb : h.buttonsMask < 2 ^ 16) (hd : h.dpadMask < 2 ^ 8) :
    (selectHotkey state h).1.buttons &&& h.buttonsMask = 0 ∧
    (selectHotkey state h).1.dpad &&& h.dpadMask = 0 ∧
    (selectHotkey state h).2 = h.action := by
  refine ⟨?_, ?_, rfl⟩
  · show state.buttons &&& (0xffff ^^^ h.buttonsMask) &&& h.buttonsMask = 0
    rw [Nat.land_assoc]
    have : (0xffff ^^^ h.buttonsMask) &&& h.buttonsMask = 0 := by
      apply Nat.eq_of_testBit_eq
      intro i
      simp only [Nat.testBit_land, Nat.testBit_xor, Nat.zero_testBit]
      by_cases hi : i < 16
      · have h1 : Nat.testBit 0xffff i = true := by
          interval_cases i <;> decide
        simp [h1, Bool.xor_comm]
      · have h1 : Nat.testBit 0xffff i = false := by
          apply Nat.testBit_lt_two_pow
          calc (0xffff : Nat) < 2 ^ 16 := by decide
            _ ≤ 2 ^ i := Nat.pow_le_pow_right (by decide) (by omega)
        have h2 : Nat.testBit h.buttonsMask i = false := by
          apply Nat.testBit_lt_two_pow
          calc h.buttonsMask < 2 ^ 16 := hb
            _ ≤ 2 ^ i := Nat.pow_le_pow_right (by decide) (by omega)
        simp [h1, h2]
    rw [this]; simp
  · show state.dpad &&& (0xff ^^^ h.dpadMask) &&& h.dpadMask = 0
    rw [Nat.land_assoc]
    have : (0xff ^^^ h.dpadMask) &&& h.dpadMask = 0 := by
      apply Nat.eq_of_testBit_eq
      intro i
      simp only [Nat.testBit_land, Nat.testBit_xor, Nat.zero_testBit]
      by_cases hi : i < 8
      · have h1 : Nat.testBit 0xff i = true := by
          interval_cases i <;> decide
        simp [h1, Bool.xor_comm]
      · have h1 : Nat.testBit 0xff i = false := by
          apply Nat.testBit_lt_two_pow
          calc (0xff : Nat) < 2 ^ 8 := by decide
            _ ≤ 2 ^ i := Nat.pow_le_pow_right (by decide) (by omega)
        have h2 : Nat.testBit h.dpadMask i = false := by
          apply Nat.testBit_lt_two_pow
          calc h.dpadMask < 2 ^ 8 := hd
            _ ≤ 2 ^ i := Nat.pow_le_pow_right (by decide) (by omega)
        simp [h1, h2]
    rw [this]; simp

/-- Witness for C4: consuming a Start+Select style chord removes its bits
from the published state and yields its action. -/
theorem selectHotkey_consumes_chord_witness :
    (selectHotkey ⟨3, 0x0300, 0, 0, 0⟩ ⟨5, 0x0300, 3, 0⟩).1.buttons &&&
        (0x0300 : Nat) = 0 ∧
    (selectHotkey ⟨3, 0x0300, 0, 0, 0⟩ ⟨5, 0x0300, 3, 0⟩).1.dpad &&&
        (3 : Nat) = 0 ∧
    (selectHotkey ⟨3, 0x0300, 0, 0, 0⟩ ⟨5, 0x0300, 3, 0⟩).2 = 5 :=
  selectHotkey_consumes_chord ⟨3, 0x0300, 0, 0, 0⟩ ⟨5, 0x0300, 3, 0⟩
    (by decide) (by decide)

/-- C9: `selectHotkey` modifies only the resolved button and d-pad masks:
the auxiliary mask, the as-wired views and nothing else change — in
particular the aux bits required by the chord are not consumed. -/
theorem selectHotkey_frame (state : GamepadState) (h : HotkeyEntry) :
    (selectHotkey state h).1.aux = state.aux ∧
    (selectHotkey state h).1.bwires = state.bwires ∧
    (selectHotkey state h).1.dwires = state.dwires ∧
    (selectHotkey state h).1 =
      { state with
          buttons := (selectHotkey state h).1.buttons
          dpad := (selectHotkey state h).1.dpad } :=
  ⟨rfl, rfl, rfl, rfl⟩

/-! ## SOCD cleaning (spec §4.3) -/

/-- Direction bit masks of the 4-bit d-pad mask (`GAMEPAD_MASK_UP` etc.,
from the external `GamepadState.h`; the spec fixes a 4-bit directional
mask up/down/left/right). -/
def GAMEPAD_MASK_UP : Nat := 1

/-- `GAMEPAD_MASK_DOWN`. -/
def GAMEPAD_MASK_DOWN : Nat := 2

/-- `GAMEPAD_MASK_LEFT`. -/
def GAMEPAD_MASK_LEFT : Nat := 4

/-- `GAMEPAD_MASK_RIGHT`. -/
def GAMEPAD_MASK_RIGHT : Nat := 8

/-- Modelled from the spec: the per-mask SOCD cleaner
`resolve(dpadRawMask, policy)` of §4.3, whose implementation is not part
of the header. Neutral cancels each fully-pressed opposing pair to
center; Up-priority resolves a vertical conflict to Up only and a
horizontal conflict to neutral; Bypass passes the raw mask through.
Second-input priority needs press-order state the stateless signature
cannot carry and is modelled as passthrough here (no claim touches it). -/
def runSOCDCleaner (mode : SOCDMode) (dpad : Nat) : Nat :=
  match mode with
  | SOCD_MODE_NEUTRAL =>
      let v := if dpad &&& (GAMEPAD_MASK_UP ||| GAMEPAD_MASK_DOWN) =
                  GAMEPAD_MASK_UP ||| GAMEPAD_MASK_DOWN
        then dpad &&& (0xf ^^^ (GAMEPAD_MASK_UP ||| GAMEPAD_MASK_DOWN))
        else dpad
      if v &&& (GAMEPAD_MASK_LEFT ||| GAMEPAD_MASK_RIGHT) =
          GAMEPAD_MASK_LEFT ||| GAMEPAD_MASK_RIGHT
        then v &&& (0xf ^^^ (GAMEPAD_MASK_LEFT ||| GAMEPAD_MASK_RIGHT))
        else v
  | SOCD_MODE_UP_PRIORITY =>
      let v := if dpad &&& (GAMEPAD_MASK_UP ||| GAMEPAD_MASK_DOWN) =
                  GAMEPAD_MASK_UP ||| GAMEPAD_MASK_DOWN
        then dpad &&& (0xf ^^^ GAMEPAD_MASK_DOWN)
        else dpad
      if v &&& (GAMEPAD_MASK_LEFT ||| GAMEPAD_MASK_RIGHT) =
          GAMEPAD_MASK_LEFT ||| GAMEPAD_MASK_RIGHT
        then v &&& (0xf ^^^ (GAMEPAD_MASK_LEFT ||| GAMEPAD_MASK_RIGHT))
        else v
  | SOCD_MODE_SECOND_INPUT_PRIORITY => dpad
  | SOCD_MODE_BYPASS => dpad

/-- C7: on every 4-bit d-pad mask, Neutral cancels a held Up+Down pair
and a held Left+Right pair to nothing and passes non-opposing
combinations through unchanged; Up-priority resolves a vertical conflict
to Up only and a horizontal conflict to neutral. -/
theorem socd_neutral_and_up_priority (d : Nat) (hd : d < 16) :
    (d &&& (GAMEPAD_MASK_UP ||| GAMEPAD_MASK_DOWN) =
        GAMEPAD_MASK_UP ||| GAMEPAD_MASK_DOWN →
      runSOCDCleaner SOCD_MODE_NEUTRAL d &&& GAMEPAD_MASK_UP = 0 ∧
      runSOCDCleaner SOCD_MODE_NEUTRAL d &&& GAMEPAD_MASK_DOWN = 0) ∧
    (d &&& (GAMEPAD_MASK_LEFT ||| GAMEPAD_MASK_RIGHT) =
        GAMEPAD_MASK_LEFT ||| GAMEPAD_MASK_RIGHT →
      runSOCDCleaner SOCD_MODE_NEUTRAL d &&& GAMEPAD_MASK_LEFT = 0 ∧
      runSOCDCleaner SOCD_MODE_NEUTRAL d &&& GAMEPAD_MASK_RIGHT = 0) ∧
    (d &&& (GAMEPAD_MASK_UP ||| GAMEPAD_MASK_DOWN) ≠
        GAMEPAD_MASK_UP ||| GAMEPAD_MASK_DOWN →
      d &&& (GAMEPAD_MASK_LEFT ||| GAMEPAD_MASK_RIGHT) ≠
        GAMEPAD_MASK_LEFT ||| GAMEPAD_MASK_RIGHT →
      runSOCDCleaner SOCD_MODE_NEUTRAL d = d) ∧
    (d &&& (GAMEPAD_MASK_UP ||| GAMEPAD_MASK_DOWN) =
        GAMEPAD_MASK_UP ||| GAMEPAD_MASK_DOWN →
      runSOCDCleaner SOCD_MODE_UP_PRIORITY d &&&
        (GAMEPAD_MASK_UP ||| GAMEPAD_MASK_DOWN) = GAMEPAD_MASK_UP) ∧
    (d &&& (GAMEPAD_MASK_LEFT ||| GAMEPAD_MASK_RIGHT) =
        GAMEPAD_MASK_LEFT ||| GAMEPAD_MASK_RIGHT →
      runSOCDCleaner SOCD_MODE_UP_PRIORITY d &&&
        (GAMEPAD_MASK_LEFT ||| GAMEPAD_MASK_RIGHT) = 0) := by
  interval_cases d <;> decide

/-- Witness for C7 at the fully-held mask `Up|Down|Left|Right = 15`:
Neutral cancels everything, Up-priority keeps Up only. -/
theorem socd_neutral_and_up_priority_witness :
    runSOCDCleaner SOCD_MODE_NEUTRAL 15 &&& GAMEPAD_MASK_UP = 0 ∧
    runSOCDCleaner SOCD_MODE_NEUTRAL 15 &&& GAMEPAD_MASK_DOWN = 0 ∧
    runSOCDCleaner SOCD_MODE_UP_PRIORITY 15 &&&
      (GAMEPAD_MASK_UP ||| GAMEPAD_MASK_DOWN) = GAMEPAD_MASK_UP :=
  have h := socd_neutral_and_up_priority 15 (by decide)
  ⟨(h.1 (by decide)).1, (h.1 (by decide)).2, h.2.2.2.1 (by decide)⟩

/-! ## Edge-triggered hotkey dispatch (spec §4.4) -/

/-- The `HOTKEY_NONE` action identifier (the header initialises
`lastAction = HOTKEY_NONE`; its numeric value `0` is the "slot unused"
sentinel used by `pressedHotkey`). -/
def HOTKEY_NONE : Nat := 0

/-- Modelled from the spec: `Gamepad::processHotkeyIfNewAction`, declared
but not defined in the header — "a new action is only surfaced to the
caller when it differs from the latch, after which the latch updates"
(spec §4.4). Returns the surfaced action (if any) and the updated
`lastAction` latch. -/
def processHotkeyIfNewAction (lastAction action : Nat) : Option Nat × Nat :=
  (if action ≠ lastAction then some action else none, action)

/-- Modelled from the spec: the per-cycle dispatch sequence — one matched
action per polling cycle fed through the latch, threading `lastAction`
from cycle to cycle; returns the surfaced action of each cycle. -/
def runHotkeyCycles (lastAction : Nat) : List Nat → List (Option Nat)
  | [] => []
  | a :: rest =>
      (processHotkeyIfNewAction lastAction a).1 ::
        runHotkeyCycles (processHotkeyIfNewAction lastAction a).2 rest

theorem runHotkeyCycles_replicate_same (a n : Nat) :
    runHotkeyCycles a (List.replicate n a) = List.replicate n none := by
  induction n with
  | zero => rfl
  | succ n ih =>
      simp [List.replicate_succ, runHotkeyCycles, processHotkeyIfNewAction, ih]

theorem runHotkeyCycles_append (l : Nat) (xs ys : List Nat) :
    runHotkeyCycles l (xs ++ ys) =
      runHotkeyCycles l xs ++ runHotkeyCycles (xs.getLastD l) ys := by
  induction xs generalizing l with
  | nil => simp [runHotkeyCycles]
  | cons a xs ih =>
      rw [List.cons_append, runHotkeyCycles, runHotkeyCycles, ih,
        List.getLastD_cons]
      simp [processHotkeyIfNewAction]

theorem replicate_getLastD (n a d : Nat) (hn : 1 ≤ n) :
    (List.replicate n a).getLastD d = a := by
  induction n generalizing d with
  | zero => omega
  | succ n ih =>
      rcases Nat.eq_zero_or_pos n with rfl | hp
      · rfl
      · rw [List.replicate_succ, List.getLastD_cons, ih a hp]

theorem runHotkeyCycles_held (A n : Nat) (hA : A ≠ HOTKEY_NONE) (hn : 1 ≤ n) :
    runHotkeyCycles HOTKEY_NONE (List.replicate n A) =
      some A :: List.replicate (n - 1) none := by
  obtain ⟨n, rfl⟩ : ∃ m, n = m + 1 := ⟨n - 1, by omega⟩
  simp only [List.replicate_succ, runHotkeyCycles, processHotkeyIfNewAction,
    if_pos hA]
  simp [runHotkeyCycles_replicate_same]

/-- C5: a chord held for `n ≥ 1` consecutive cycles dispatches its action
exactly once, on the first cycle, and never again while held; releasing
the chord for `m ≥ 1` cycles and re-pressing it for `k ≥ 1` cycles yields
exactly a second dispatch. -/
theorem hotkey_edge_triggered (A n m k : Nat) (hA : A ≠ HOTKEY_NONE)
    (hn : 1 ≤ n) (hm : 1 ≤ m) (hk : 1 ≤ k) :
    runHotkeyCycles HOTKEY_NONE (List.replicate n A) =
      some A :: List.replicate (n - 1) none ∧
    (runHotkeyCycles HOTKEY_NONE (List.replicate n A)).count (some A) = 1 ∧
    (runHotkeyCycles HOTKEY_NONE
        (List.replicate n A ++ List.replicate m HOTKEY_NONE ++
          List.replicate k A)).count (some A) = 2 := by
  refine ⟨runHotkeyCycles_held A n hA hn, ?_, ?_⟩
  · rw [runHotkeyCycles_held A n hA hn]
    simp [List.count_cons, List.count_replicate]
  · rw [List.append_assoc, runHotkeyCycles_append,
      replicate_getLastD n A HOTKEY_NONE hn,
      runHotkeyCycles_append,
      replicate_getLastD m HOTKEY_NONE A hm,
      runHotkeyCycles_held A n hA hn]
    obtain ⟨m, rfl⟩ : ∃ m', m = m' + 1 := ⟨m - 1, by omega⟩
    simp only [List.replicate_succ, runHotkeyCycles, processHotkeyIfNewAction,
      if_pos (by simpa using Ne.symm hA)]
    rw [runHotkeyCycles_replicate_same, runHotkeyCycles_held A k hA hk]
    simp [List.count_cons, List.count_append, List.count_replicate,
      Ne.symm hA, hA]

/-- Witness for C5: hold for 3 cycles, release for 2, re-press for 2 —
one dispatch on the first cycle, two dispatches in total. -/
theorem hotkey_edge_triggered_witness :
    runHotkeyCycles HOTKEY_NONE (List.replicate 3 7) =
      some 7 :: List.replicate 2 none ∧
    (runHotkeyCycles HOTKEY_NONE (List.replicate 3 7)).count (some 7) = 1 ∧
    (runHotkeyCycles HOTKEY_NONE
        (List.replicate 3 7 ++ List.replicate 2 HOTKEY_NONE ++
          List.replicate 2 7)).count (some 7) = 2 :=
  hotkey_edge_triggered 7 3 2 2 (by decide) (by decide) (by decide) (by decide)

/-! ## Debouncing (spec §4.2)

`GamepadDebouncer` is only declared by the header (`gamepad/GamepadDebouncer.h`
is an external include); the algorithm is modelled from the spec: "an input
transition is accepted only after the new level has been observed
continuously for at least a configured debounce interval (default 5 ms
...); until that interval elapses after a change, the previously-accepted
level is reported." -/

/-- The default debounce interval of the `Gamepad` constructor
(`Gamepad(int debounceMS = 5)`, gamepad.h line 62), in milliseconds. -/
def debounceMSDefault : Nat := 5

/-- One sampled observation of an input: the instantaneous digital level
and the monotonic time (milliseconds) at which it was sampled. -/
structure Sample where
  level : Bool
  time : Nat
  deriving DecidableEq, Repr

/-- Modelled from the spec: the per-input debouncer state — the
currently-accepted (reported) level, the most recently observed raw level,
and the time since which that raw level has been observed continuously. -/
structure DebounceState where
  accepted : Bool
  candidate : Bool
  candidateSince : Nat
  deriving DecidableEq, Repr

/-- The start time of the current run of the raw level: kept when the new
sample repeats the candidate level, reset to the sample time otherwise. -/
def debounceCandSince (s : DebounceState) (x : Sample) : Nat :=
  if x.level = s.candidate then s.candidateSince else x.time

/-- Modelled from the spec: one debouncer update — the new level is
accepted only when it differs from the accepted level and has been
observed continuously for at least the interval `ival`; otherwise the
previously-accepted level is kept. -/
def debounceStep (ival : Nat) (s : DebounceState) (x : Sample) : DebounceState :=
  if x.level ≠ s.accepted ∧ ival ≤ x.time - debounceCandSince s x then
    ⟨x.level, x.level, debounceCandSince s x⟩
  else
    ⟨s.accepted, x.level, debounceCandSince s x⟩

/-- The debouncer state at power-on: level `a` accepted and stable. -/
def debounceInit (a : Bool) : DebounceState := ⟨a, a, 0⟩

/-- Folding the debouncer over a sample sequence. -/
def debounceRun (ival : Nat) (s : DebounceState) : List Sample → DebounceState
  | [] => s
  | x :: rest => debounceRun ival (debounceStep ival s x) rest

/-- The stabilized output trace: the reported (accepted) level after each
sample. -/
def debounceOutputs (ival : Nat) (s : DebounceState) : List Sample → List Bool
  | [] => []
  | x :: rest =>
      (debounceStep ival s x).accepted ::
        debounceOutputs ival (debounceStep ival s x) rest

theorem debounceStep_candidate (ival : Nat) (s : DebounceState) (x : Sample) :
    (debounceStep ival s x).candidate = x.level := by
  unfold debounceStep
  split <;> rfl

theorem debounceStep_candidateSince (ival : Nat) (s : DebounceState)
    (x : Sample) :
    (debounceStep ival s x).candidateSince = debounceCandSince s x := by
  unfold debounceStep
  split <;> rfl

theorem debounceStep_accepted_cases (ival : Nat) (s : DebounceState)
    (x : Sample) :
    (debounceStep ival s x).accepted = s.accepted ∨
    ((debounceStep ival s x).accepted = x.level ∧ x.level ≠ s.accepted ∧
      ival ≤ x.time - debounceCandSince s x) := by
  unfold debounceStep
  by_cases h : x.level ≠ s.accepted ∧ ival ≤ x.time - debounceCandSince s x
  · rw [if_pos h]
    exact Or.inr ⟨rfl, h⟩
  · rw [if_neg h]
    exact Or.inl rfl

theorem debounceStep_keep (ival : Nat) (s : DebounceState) (x : Sample)
    (h : x.level = s.accepted) :
    (debounceStep ival s x).accepted = s.accepted := by
  unfold debounceStep
  rw [if_neg]
  simp [h]

theorem debounceStep_accept (ival : Nat) (s : DebounceState) (x : Sample)
    (hc : s.candidate = x.level)
    (ht : ival ≤ x.time - s.candidateSince) :
    (debounceStep ival s x).accepted = x.level := by
  have hs : debounceCandSince s x = s.candidateSince := by
    simp [debounceCandSince, hc.symm]
  by_cases ha : x.level = s.accepted
  · rw [debounceStep_keep ival s x ha, ha]
  · unfold debounceStep
    rw [hs, if_pos ⟨ha, ht⟩]

theorem debounceRun_append (ival : Nat) (s : DebounceState)
    (xs ys : List Sample) :
    debounceRun ival s (xs ++ ys) =
      debounceRun ival (debounceRun ival s xs) ys := by
  induction xs generalizing s with
  | nil => rfl
  | cons x xs ih => rw [List.cons_append, debounceRun, debounceRun, ih]

theorem debounceRun_accepted_persist (ival : Nat) (L : Bool)
    (xs : List Sample) (s : DebounceState) (hs : s.accepted = L)
    (hl : ∀ y ∈ xs, y.level = L) :
    (debounceRun ival s xs).accepted = L := by
  induction xs generalizing s with
  | nil => exact hs
  | cons x xs ih =>
      rw [debounceRun]
      refine ih _ ?_ (fun y hy => hl y (List.mem_cons_of_mem x hy))
      rw [debounceStep_keep ival s x (by rw [hl x (List.mem_cons_self x xs), hs]), hs]

theorem debounceRun_const_level (ival : Nat) (L : Bool) (xs : List Sample)
    (s : DebounceState) (hc : s.candidate = L)
    (hl : ∀ y ∈ xs, y.level = L) :
    (debounceRun ival s xs).candidate = L ∧
    (debounceRun ival s xs).candidateSince = s.candidateSince := by
  induction xs generalizing s with
  | nil => exact ⟨hc, rfl⟩
  | cons x xs ih =>
      rw [debounceRun]
      have hx : x.level = L := hl x (List.mem_cons_self x xs)
      have hcs : debounceCandSince s x = s.candidateSince := by
        simp [debounceCandSince, hx, hc]
      obtain ⟨h1, h2⟩ := ih (debounceStep ival s x)
        (by rw [debounceStep_candidate, hx])
        (fun y hy => hl y (List.mem_cons_of_mem x hy))
      exact ⟨h1, by rw [h2, debounceStep_candidateSince, hcs]⟩

theorem debounceOutputs_const_level (ival : Nat) (L : Bool)
    (xs : List Sample) (s : DebounceState) (hc : s.candidate = L)
    (hl : ∀ y ∈ xs, y.level = L) :
    ∃ j, j ≤ xs.length ∧
      debounceOutputs ival s xs =
        List.replicate j s.accepted ++ List.replicate (xs.length - j) L := by
  induction xs generalizing s with
  | nil => exact ⟨0, by simp [debounceOutputs]⟩
  | cons x xs ih =>
      rw [debounceOutputs]
      have hx : x.level = L := hl x (List.mem_cons_self x xs)
      obtain ⟨j, hj, hout⟩ := ih (debounceStep ival s x)
        (by rw [debounceStep_candidate, hx])
        (fun y hy => hl y (List.mem_cons_of_mem x hy))
      rcases debounceStep_accepted_cases ival s x with hk | ⟨hf, -⟩
      · refine ⟨j + 1, by simpa using hj, ?_⟩
        rw [hout, hk]
        have hlen : (x :: xs).length - (j + 1) = xs.length - j := by
          simp
        rw [hlen, List.replicate_succ]
        simp
      · refine ⟨0, by simp, ?_⟩
        rw [hout, hf, hx]
        have : List.replicate j L ++ List.replicate (xs.length - j) L =
            List.replicate xs.length L := by
          rw [← List.replicate_add]
          congr 1
          omega
        rw [this]
        simp [List.replicate_succ]

theorem debounceRun_inv (ival : Nat) (a : Bool) (xs : List Sample) :
    (debounceRun ival (debounceInit a) xs).candidate =
      (debounceRun ival (debounceInit a) xs).accepted ∨
    ∃ ys z zs', xs = ys ++ z :: zs' ∧
      z.time = (debounceRun ival (debounceInit a) xs).candidateSince ∧
      z.level = (debounceRun ival (debounceInit a) xs).candidate ∧
      ∀ y ∈ zs', y.level = (debounceRun ival (debounceInit a) xs).candidate := by
  induction xs using List.reverseRecOn with
  | nil => exact Or.inl rfl
  | append_singleton xs x ih =>
      rw [debounceRun_append]
      set s := debounceRun ival (debounceInit a) xs with hs
      rw [show debounceRun ival s [x] = debounceStep ival s x from rfl]
      rcases debounceStep_accepted_cases ival s x with hk | ⟨hf, -, -⟩
      · by_cases hcand : x.level = s.candidate
        · rcases ih with hl | ⟨ys, z, zs', hsplit, hzt, hzl, hzs⟩
          · exact Or.inl (by
              rw [debounceStep_candidate, hk, hcand, hl])
          · refine Or.inr ⟨ys, z, zs' ++ [x], by simp [hsplit], ?_, ?_, ?_⟩
            · rw [debounceStep_candidateSince,
                show debounceCandSince s x = s.candidateSince from by
                  simp [debounceCandSince, hcand], hzt]
            · rw [debounceStep_candidate, hzl, hcand]
            · intro y hy
              rw [debounceStep_candidate]
              rcases List.mem_append.mp hy with hy | hy
              · rw [hzs y hy, hcand]
              · rw [List.mem_singleton.mp hy]
        · refine Or.inr ⟨xs, x, [], by simp, ?_, ?_, by simp⟩
          · rw [debounceStep_candidateSince,
              show debounceCandSince s x = x.time from by
                simp [debounceCandSince, hcand]]
          · rw [debounceStep_candidate]
      · exact Or.inl (by rw [debounceStep_candidate, hf])

/-- C6: (a) the default interval is 5 ms; (b) whenever processing one more
sample flips the reported level, the new level equals that sample's level
and there is a trailing run of samples, all carrying the new level,
whose start is at least the interval before the flipping sample — i.e. a
transition is reported only after the new level was observed continuously
for at least the interval, the previously-accepted level being reported
until then; (c) two raw transitions 2 ms apart under a 5 ms window produce
no transition in the stabilized output; (d) an input held at a new level
`L` for at least the interval is reflected, and the output trace changes
exactly once: a prefix still reporting the old level followed only by `L`. -/
theorem debouncer_spec (ival : Nat) (a : Bool) :
    debounceMSDefault = 5 ∧
    (∀ xs x,
      (_hmono : (xs ++ [x]).Chain' (fun p q => p.time ≤ q.time)) →
      (debounceStep ival (debounceRun ival (debounceInit a) xs) x).accepted ≠
        (debounceRun ival (debounceInit a) xs).accepted →
      (debounceStep ival (debounceRun ival (debounceInit a) xs) x).accepted =
        x.level ∧
      ∃ ys z zs', xs ++ [x] = ys ++ z :: zs' ∧ ival ≤ x.time - z.time ∧
        ∀ y ∈ z :: zs', y.level = x.level) ∧
    (debounceOutputs 5 (debounceInit false)
        [⟨true, 0⟩, ⟨true, 1⟩, ⟨false, 2⟩, ⟨false, 3⟩, ⟨false, 4⟩,
         ⟨false, 5⟩, ⟨false, 6⟩, ⟨false, 7⟩] =
      List.replicate 8 false) ∧
    (∀ (L : Bool) (x1 : Sample) (rest : List Sample),
      (_hmono : (x1 :: rest).Chain' (fun p q => p.time ≤ q.time)) →
      a ≠ L → x1.level = L → (∀ y ∈ rest, y.level = L) →
      (∃ xe ∈ x1 :: rest, x1.time + ival ≤ xe.time) →
      (debounceRun ival (debounceInit a) (x1 :: rest)).accepted = L ∧
      ∃ j, j ≤ 1 + rest.length ∧
        debounceOutputs ival (debounceInit a) (x1 :: rest) =
          List.replicate j a ++ List.replicate (1 + rest.length - j) L) := by
  refine ⟨rfl, ?_, by decide, ?_⟩
  · intro xs x _hmono hflip
    rcases debounceStep_accepted_cases ival
        (debounceRun ival (debounceInit a) xs) x with hk | ⟨hf, hne, ht⟩
    · exact absurd hk hflip
    · refine ⟨hf, ?_⟩
      by_cases hcand :
          x.level = (debounceRun ival (debounceInit a) xs).candidate
      · have hcs : debounceCandSince (debounceRun ival (debounceInit a) xs) x =
            (debounceRun ival (debounceInit a) xs).candidateSince := by
          simp [debounceCandSince, hcand]
        rw [hcs] at ht
        rcases debounceRun_inv ival a xs with hl |
          ⟨ys, z, zs', hsplit, hzt, hzl, hzs⟩
        · exact absurd (hcand.trans hl) hne
        · refine ⟨ys, z, zs' ++ [x], by simp [hsplit],
            by rw [hzt]; exact ht, ?_⟩
          intro y hy
          rcases List.mem_cons.mp hy with rfl | hy
          · rw [hzl]
            exact hcand.symm
          · rcases List.mem_append.mp hy with hy | hy
            · rw [hzs y hy]
              exact hcand.symm
            · rw [List.mem_singleton.mp hy]
      · have hcs : debounceCandSince (debounceRun ival (debounceInit a) xs) x =
            x.time := by
          simp [debounceCandSince, hcand]
        rw [hcs] at ht
        refine ⟨xs, x, [], by simp, ht, ?_⟩
        intro y hy
        rw [List.mem_singleton.mp hy]
  · intro L x1 rest _hmono haL h1 hr hxe
    have hstep1 : debounceCandSince (debounceInit a) x1 = x1.time := by
      simp [debounceCandSince, debounceInit, h1, haL.symm]
    have hc1 : (debounceStep ival (debounceInit a) x1).candidate = L := by
      rw [debounceStep_candidate, h1]
    have hcs1 : (debounceStep ival (debounceInit a) x1).candidateSince =
        x1.time := by
      rw [debounceStep_candidateSince, hstep1]
    constructor
    · obtain ⟨xe, hxe_mem, hxe_t⟩ := hxe
      rcases List.mem_cons.mp hxe_mem with rfl | hxe_mem
      · have hiv : ival = 0 := by omega
        have : (debounceStep ival (debounceInit a) xe).accepted = L := by
          unfold debounceStep
          rw [if_pos ⟨by simp [debounceInit, h1]; exact Ne.symm haL,
            by omega⟩]
          exact h1
        rw [show debounceRun ival (debounceInit a) (xe :: rest) =
            debounceRun ival (debounceStep ival (debounceInit a) xe) rest
          from rfl]
        exact debounceRun_accepted_persist ival L rest _ this hr
      · obtain ⟨ys, zs, rfl⟩ := List.append_of_mem hxe_mem
        rw [show debounceRun ival (debounceInit a)
              (x1 :: (ys ++ xe :: zs)) =
            debounceRun ival (debounceStep ival (debounceInit a) x1)
              (ys ++ xe :: zs) from rfl,
          debounceRun_append]
        set s2 := debounceRun ival (debounceStep ival (debounceInit a) x1) ys
          with hs2
        have hys : ∀ y ∈ ys, y.level = L := fun y hy =>
          hr y (List.mem_append_left _ hy)
        obtain ⟨hc2, hcs2⟩ := debounceRun_const_level ival L ys _ hc1 hys
        have hxeL : xe.level = L :=
          hr xe (List.mem_append_right _ (List.mem_cons_self xe zs))
        have hacc : (debounceStep ival s2 xe).accepted = L := by
          rw [← hxeL]
          refine debounceStep_accept ival s2 xe (by rw [hc2, hxeL]) ?_
          rw [hcs2, hcs1]
          omega
        rw [show debounceRun ival s2 (xe :: zs) =
            debounceRun ival (debounceStep ival s2 xe) zs from rfl]
        exact debounceRun_accepted_persist ival L zs _ hacc
          (fun y hy => hr y (List.mem_append_right _ (List.mem_cons_of_mem _ hy)))
    · rw [show debounceOutputs ival (debounceInit a) (x1 :: rest) =
          (debounceStep ival (debounceInit a) x1).accepted ::
            debounceOutputs ival (debounceStep ival (debounceInit a) x1) rest
        from rfl]
      obtain ⟨j, hj, hout⟩ :=
        debounceOutputs_const_level ival L rest _ hc1 hr
      rcases debounceStep_accepted_cases ival (debounceInit a) x1 with
        hk | ⟨hf, -, -⟩
      · refine ⟨j + 1, by omega, ?_⟩
        rw [hout, hk, show (debounceInit a).accepted = a from rfl]
        have hlen : 1 + rest.length - (j + 1) = rest.length - j := by omega
        rw [hlen, List.replicate_succ]
        simp
      · refine ⟨0, by omega, ?_⟩
        rw [hout, hf, h1]
        have : List.replicate j L ++ List.replicate (rest.length - j) L =
            List.replicate rest.length L := by
          rw [← List.replicate_add]
          congr 1
          omega
        rw [this]
        have hlen : 1 + rest.length - 0 = rest.length + 1 := by omega
        rw [hlen, List.replicate_succ]
        simp

/-- Witness for C6: with a 5 ms window starting from a stable low level,
a high level held from t = 0 through t = 5 flips the report (part b), and
the held-stable scenario yields exactly one output transition (part d). -/
theorem debouncer_spec_witness :
    ((debounceStep 5 (debounceRun 5 (debounceInit false) [⟨true, 0⟩])
        ⟨true, 5⟩).accepted = Sample.level ⟨true, 5⟩ ∧
      ∃ ys z zs',
        ([⟨true, 0⟩] : List Sample) ++ [⟨true, 5⟩] = ys ++ z :: zs' ∧
        5 ≤ Sample.time ⟨true, 5⟩ - z.time ∧
        ∀ y ∈ z :: zs', y.level = Sample.level ⟨true, 5⟩) ∧
    ((debounceRun 5 (debounceInit false)
        [⟨true, 0⟩, ⟨true, 5⟩]).accepted = true ∧
      ∃ j, j ≤ 1 + ([(⟨true, 5⟩ : Sample)] : List Sample).length ∧
        debounceOutputs 5 (debounceInit false) [⟨true, 0⟩, ⟨true, 5⟩] =
          List.replicate j false ++
            List.replicate (1 + ([(⟨true, 5⟩ : Sample)]).length - j) true) :=
  ⟨(debouncer_spec 5 false).2.1 [⟨true, 0⟩] ⟨true, 5⟩
     (by simp [List.chain'_pair]) (by decide),
   (debouncer_spec 5 false).2.2.2 true ⟨true, 0⟩ [⟨true, 5⟩]
     (by simp [List.chain'_pair]) (by decide) rfl (by decide)
     ⟨⟨true, 5⟩, by decide⟩⟩

end GP2040
